import Mathlib

/-!
Verification of the ssl-cert-server core: the host-authorization policy
composer and configuration defaults (`config.go`), and the managed
certificate cache (`server/managed.go`), shallowly embedded in Lean.

Conventions of the embedding:
* A certificate (`tls.Certificate`) is opaque; we model it as `Nat`.
* A Go `error` value is `Option String` (`none` = nil error) or, for
  functions returning `(value, error)`, an `Except String` value.
* An `autocert.HostPolicy` becomes `String → Option String`
  (`none` = allow, `some msg` = deny with error message).
* A compiled regular expression is modelled by its matching predicate
  `String → Bool` (the only operation the code performs on it).
-/

namespace SslCertServer

/-- Opaque stand-in for `tls.Certificate`. -/
abbrev Cert := Nat

/-- Opaque stand-in for `autocert.Cache`. -/
abbrev Cache := Nat

/-! ## Host policy composer (`config.go`) -/

/-- ASCII lower-casing of one character (structural, so that concrete
policy evaluations reduce in the kernel). -/
def lowerChar (c : Char) : Char :=
  if 65 ≤ c.toNat ∧ c.toNat ≤ 90 then Char.ofNat (c.toNat + 32) else c

/-- ASCII lower-casing of a string, character by character. -/
def lowerString (s : String) : String := ⟨s.data.map lowerChar⟩

/-- Modelled from the spec: `HostWhitelist` is repository code outside the
given sources; per the spec's exact-list policy it allows iff the host is a
member of the configured domain set (case-insensitive, no wildcard
expansion), returning a deny error otherwise. -/
def HostWhitelist (hosts : List String) : String → Option String :=
  fun host =>
    if (hosts.map lowerString).contains (lowerString host) then none
    else some "host not on whitelist"

/-- Modelled from the spec: `RegexpWhitelist` is repository code outside the
given sources; per the spec's regex-list policy it allows iff the host
matches any of the configured compiled patterns, returning a deny error
otherwise. -/
def RegexpWhitelist (patterns : List (String → Bool)) : String → Option String :=
  fun host =>
    if patterns.any (fun p => p host) then none
    else some "host not configured"

/-- The anonymous closure built by `config.buildHostPolicy` when at least one
sub-policy is non-nil, translated statement by statement from
`src/config.go` lines 146-158.  `err` is the closure's named return value;
an early `return nil` yields `none`. -/
def composedHostPolicy (listPolicy rePolicy : Option (String → Option String))
    (host : String) : Option String :=
  -- if listPolicy != nil { if err = listPolicy(ctx, host); err == nil { return nil } }
  match listPolicy with
  | some lp =>
    match lp host with
    | none => none
    | some e =>
      -- err is now `some e`; fall through to the rePolicy branch
      match rePolicy with
      | some rp =>
        match rp host with
        -- if err = rePolicy(ctx, host); err != nil { return nil }
        | some _ => none
        -- otherwise err was assigned nil; final `return err` returns nil
        | none => none
      | none => some e
  | none =>
    match rePolicy with
    | some rp =>
      match rp host with
      | some _ => none
      | none => none
    | none => none

/-- `config.buildHostPolicy` (`src/config.go` lines 119-159): builds
`listPolicy` from the domain list when non-empty, `rePolicy` from the
pattern list when non-empty; when both are nil installs the allow-all
policy, otherwise installs `composedHostPolicy`. -/
def buildHostPolicy (domains : List String) (patterns : List (String → Bool)) :
    String → Option String :=
  let listPolicy : Option (String → Option String) :=
    if domains.length > 0 then some (HostWhitelist domains) else none
  let rePolicy : Option (String → Option String) :=
    if patterns.length > 0 then some (RegexpWhitelist patterns) else none
  match listPolicy, rePolicy with
  | none, none => fun _ => none
  | lp, rp => fun host => composedHostPolicy lp rp host

/-- Matching predicate of the compiled regex `^b\.` (used by the spec's
host-policy example): the host starts with the two characters `b.`. -/
def patternBDot : String → Bool := fun s => s.data.take 2 == ['b', '.']

/-! ## Configuration defaults (`config.go`) -/

/-- The fields of the `config` struct that `setupDefaultOptions` touches,
plus `storageType` needed by `initConfig`. -/
structure Config where
  listen : String
  pidFile : String
  storageType : String
  storageDirCache : String
  storageRedisAddr : String
  leStaging : Bool
  leRenewBefore : Int
  leDirectoryURL : String
  ssEnable : Bool
  ssValidDays : Int
  ssOrganization : List String
  ssCert : String
  ssPrivKey : String
deriving DecidableEq, Repr

def stagingDirectoryURL : String :=
  "https://acme-staging-v02.api.letsencrypt.org/directory"

def letsEncryptURL : String :=
  "https://acme-v02.api.letsencrypt.org/directory"

def defaultSelfSignedOrganization : List String :=
  ["SSL Cert Server Self-Signed"]

/-! `config.setupDefaultOptions` (`src/config.go` lines 77-117) is a
sequence of eleven conditional field assignments to the global `Cfg`; each
becomes one step function below, applied in source order by
`setupDefaultOptions`.  Note the second conditional assigns the PID-file
default to the `Listen` field, exactly as the source does. -/

/-- Step `if Cfg.Listen == "" { Cfg.Listen = "127.0.0.1:8999" }`. -/
def setupListenDefault (c : Config) : Config :=
  if c.listen == "" then { c with listen := "127.0.0.1:8999" } else c

/-- Step `if Cfg.PIDFile == "" { Cfg.Listen = "ssl-cert-server.pid" }` —
the assignment target in the source is `Cfg.Listen`, not `Cfg.PIDFile`. -/
def setupPIDFileDefault (c : Config) : Config :=
  if c.pidFile == "" then { c with listen := "ssl-cert-server.pid" } else c

/-- Step `if Cfg.Storage.Type == "" { Cfg.Storage.Type = "dir_cache" }`. -/
def setupStorageTypeDefault (c : Config) : Config :=
  if c.storageType == "" then { c with storageType := "dir_cache" } else c

/-- Step `if Cfg.Storage.DirCache == "" { ... = "./secret-dir" }`. -/
def setupDirCacheDefault (c : Config) : Config :=
  if c.storageDirCache == "" then { c with storageDirCache := "./secret-dir" } else c

/-- Step `if Cfg.Storage.Redis.Addr == "" { ... = "127.0.0.1:6379" }`. -/
def setupRedisAddrDefault (c : Config) : Config :=
  if c.storageRedisAddr == "" then { c with storageRedisAddr := "127.0.0.1:6379" } else c

/-- Step `if Cfg.LetsEncrypt.RenewBefore <= 0 { ... = 30 }`. -/
def setupRenewBeforeDefault (c : Config) : Config :=
  if c.leRenewBefore ≤ 0 then { c with leRenewBefore := 30 } else c

/-- Step selecting the ACME directory URL from the staging flag. -/
def setupDirectoryURL (c : Config) : Config :=
  if c.leStaging then { c with leDirectoryURL := stagingDirectoryURL }
  else { c with leDirectoryURL := letsEncryptURL }

/-- Step `if Cfg.SelfSigned.ValidDays <= 0 { ... = 365 }`. -/
def setupValidDaysDefault (c : Config) : Config :=
  if c.ssValidDays ≤ 0 then { c with ssValidDays := 365 } else c

/-- Step `if len(Cfg.SelfSigned.Organization) == 0 { ... = default }`. -/
def setupOrganizationDefault (c : Config) : Config :=
  if c.ssOrganization.length == 0 then
    { c with ssOrganization := defaultSelfSignedOrganization } else c

/-- Step `if Cfg.SelfSigned.Cert == "" { ... = "self_signed.cert" }`. -/
def setupCertDefault (c : Config) : Config :=
  if c.ssCert == "" then { c with ssCert := "self_signed.cert" } else c

/-- Step `if Cfg.SelfSigned.PrivKey == "" { ... = "self_signed.key" }`. -/
def setupPrivKeyDefault (c : Config) : Config :=
  if c.ssPrivKey == "" then { c with ssPrivKey := "self_signed.key" } else c

/-- `config.setupDefaultOptions`: the eleven steps in source order. -/
def setupDefaultOptions (c : Config) : Config :=
  setupPrivKeyDefault (setupCertDefault (setupOrganizationDefault
    (setupValidDaysDefault (setupDirectoryURL (setupRenewBeforeDefault
      (setupRedisAddrDefault (setupDirCacheDefault (setupStorageTypeDefault
        (setupPIDFileDefault (setupListenDefault c))))))))))

/-! ## Storage-cache setup inside `initConfig` (`config.go`) -/

/-- Outcome of the storage `switch` in `initConfig`: either the process
aborts via `log.Fatalf`, or startup proceeds with the (possibly nil)
`Storage.Cache` value. -/
inductive InitStorageOutcome where
  | fatal (msg : String)
  | proceed (cache : Option Cache)
deriving DecidableEq, Repr

/-- The `switch Cfg.Storage.Type` statement of `initConfig`
(`src/config.go` lines 189-197).  `NewDirCache` and `NewRedisCache` are
repository code outside the given sources, so their results are taken as
parameters: a returned cache value and a returned error.  In the
`dir_cache` case the source discards the error (`Cfg.Storage.Cache, _ =
NewDirCache(...)`); in the `redis` case a non-nil error is fatal; any other
type matches no case and leaves `Storage.Cache` at its zero value (nil). -/
def initStorageCache (storType : String)
    (newDirCache : Option Cache × Option String)
    (newRedisCache : Option Cache × Option String) : InitStorageOutcome :=
  match storType with
  | "dir_cache" => .proceed newDirCache.1
  | "redis" =>
    match newRedisCache.2 with
    | some e => .fatal ("failed setup redis storage: " ++ e)
    | none => .proceed newRedisCache.1
  | _ => .proceed none

/-! ## Managed certificate cache (`server/managed.go`)

The cache is embedded as explicit state passing.  `p.cache` (a `sync.Map`
from cert keys to `*managedCert`) becomes an association list; a call to
`getManagedCertificate` is a function from the current map state to a
result, the new map state, and a trace of the observable effects the call
performed (mutex acquire/release, synchronous storage loads, `go`-spawned
reload tasks).  The storage manager's `LoadCertificateFromStore` is a
parameter `stor : String → Except String Cert`; `time.Now().Unix()` is a
parameter `now : Int`. -/

/-- `reloadInterval` constant of `server/managed.go` (seconds). -/
def reloadInterval : Int := 300

/-- The mutable fields of `managedCert`: the atomic certificate pointer
(`nil` = `none`) and the `loadAt` Unix timestamp. -/
structure ManagedCert where
  cert : Option Cert
  loadAt : Int
deriving DecidableEq, Repr

/-- Observable effects of one `getManagedCertificate` or
`reloadManagedCertificate` invocation, in program order. -/
inductive Event where
  | lockAcquire
  | lockRelease
  | storLoad (certKey : String)
  | goReload (certKey : String)
deriving DecidableEq, Repr

/-- The cache map state: association list from cert key to entry value. -/
abbrev CacheMap := List (String × ManagedCert)

/-- `p.cache.Load(certKey)`. -/
def cacheLoad (m : CacheMap) (certKey : String) : Option ManagedCert :=
  (m.find? (fun e => e.1 == certKey)).map (fun e => e.2)

/-- `p.cache.LoadOrStore(certKey, v)`: returns the entry now associated
with the key (the existing one, or `v` freshly inserted) and the new map. -/
def cacheLoadOrStore (m : CacheMap) (certKey : String) (v : ManagedCert) :
    ManagedCert × CacheMap :=
  match m.find? (fun e => e.1 == certKey) with
  | some e => (e.2, m)
  | none => (v, m ++ [(certKey, v)])

/-- In-place mutation of the entry a key maps to (the Go code mutates the
shared `*managedCert`; in the embedding the map is rebound to an equal map
with that entry's value replaced). -/
def cacheUpdate (m : CacheMap) (certKey : String) (v : ManagedCert) : CacheMap :=
  m.map (fun e => if e.1 == certKey then (certKey, v) else e)

/-- Result of one `getManagedCertificate` invocation. -/
structure GetOutcome where
  result : Except String Cert
  cache : CacheMap
  trace : List Event
deriving Repr

/-- The critical section of `getManagedCertificate` executed with
`mngCert.Lock()` held (`server/managed.go` lines 72-82): re-check the
snapshot; if still nil call `LoadCertificateFromStore`, on error return
`fmt.Errorf("managed: %v", err)` leaving the entry untouched, on success
store the certificate and set `loadAt = now`.  Returns the entry's new
value, the function result, and the storage-load events performed. -/
def lockedLoad (stor : String → Except String Cert) (now : Int)
    (mngCert : ManagedCert) (certKey : String) :
    ManagedCert × Except String Cert × List Event :=
  match mngCert.cert with
  | some c => (mngCert, .ok c, [])
  | none =>
    match stor certKey with
    | .error e => (mngCert, .error ("managed: " ++ e), [.storLoad certKey])
    | .ok tlscert => (⟨some tlscert, now⟩, .ok tlscert, [.storLoad certKey])

/-- The cold path of `getManagedCertificate` (`server/managed.go` lines
66-82): `LoadOrStore` an empty entry, lock it, run the critical section,
unlock via `defer` on return. -/
def coldLoad (stor : String → Except String Cert) (now : Int)
    (m : CacheMap) (certKey : String) : GetOutcome :=
  let ls := cacheLoadOrStore m certKey ⟨none, 0⟩
  let out := lockedLoad stor now ls.1 certKey
  { result := out.2.1
    cache := cacheUpdate ls.2 certKey out.1
    trace := Event.lockAcquire :: out.2.2 ++ [Event.lockRelease] }

/-- `ManagedCertManager.getManagedCertificate` (`server/managed.go` lines
53-83).  Hot path: if the key is cached and its atomic snapshot is non-nil,
return it immediately, first spawning a background reload task when
`loadAt > 0 && now-loadAt > reloadInterval`.  Otherwise fall through to the
cold path. -/
def getManagedCertificate (stor : String → Except String Cert) (now : Int)
    (m : CacheMap) (certKey : String) : GetOutcome :=
  match cacheLoad m certKey with
  | some mngCert =>
    match mngCert.cert with
    | some tlscert =>
      if mngCert.loadAt > 0 && now - mngCert.loadAt > reloadInterval then
        { result := .ok tlscert, cache := m, trace := [.goReload certKey] }
      else
        { result := .ok tlscert, cache := m, trace := [] }
    | none => coldLoad stor now m certKey
  | none => coldLoad stor now m certKey

/-- `ManagedCertManager.reloadManagedCertificate` (`server/managed.go`
lines 85-95), acting on one entry: load from storage; on error log a
warning and return with the entry untouched (the function has no error
result, so nothing propagates); on success lock, swap the snapshot, set
`loadAt = now`, unlock. -/
def reloadManagedCertificate (stor : String → Except String Cert) (now : Int)
    (mngCert : ManagedCert) (certKey : String) : ManagedCert × List Event :=
  match stor certKey with
  | .error _ => (mngCert, [.storLoad certKey])
  | .ok tlscert =>
    (⟨some tlscert, now⟩, [.storLoad certKey, .lockAcquire, .lockRelease])

/-- `ManagedCertManager.OCSPKeyName` (`server/managed.go` lines 97-99). -/
def OCSPKeyName (certKey : String) : String := "managed|" ++ certKey

/-- Result of one `ManagedCertManager.Get` invocation: additionally records
the OCSP watch registration performed, as the pair of the watch key and the
cert key whose load path the registered callback re-invokes
(`func() { return p.getManagedCertificate(certKey) }`). -/
structure GetResult where
  result : Except String Cert
  cache : CacheMap
  trace : List Event
  watch : Option (String × String)
deriving Repr

/-- `ManagedCertManager.Get` (`server/managed.go` lines 39-51): call
`getManagedCertificate`; on error return it with no watch registered;
on success call `p.ocspMgr.Watch(p.OCSPKeyName(certKey), callback)` where
the callback re-invokes `getManagedCertificate(certKey)`, then return the
certificate. -/
def ManagedGet (stor : String → Except String Cert) (now : Int)
    (m : CacheMap) (certKey : String) : GetResult :=
  let out := getManagedCertificate stor now m certKey
  match out.result with
  | .error e => { result := .error e, cache := out.cache, trace := out.trace, watch := none }
  | .ok tlscert =>
    { result := .ok tlscert, cache := out.cache, trace := out.trace
      watch := some (OCSPKeyName certKey, certKey) }

/-- A concrete configuration value used to exercise `setupDefaultOptions`:
a configured listen address and an empty PID file. -/
def sampleConfig : Config :=
  { listen := "0.0.0.0:443", pidFile := "", storageType := "", storageDirCache := ""
    storageRedisAddr := "", leStaging := false, leRenewBefore := 0, leDirectoryURL := ""
    ssEnable := false, ssValidDays := 0, ssOrganization := [], ssCert := "", ssPrivKey := "" }

/-! ## Helper lemmas about the default-option steps

None of the steps after the PID-file one writes `listen` or `pidFile`, and
no step at all writes `pidFile`. -/

@[simp] theorem setupListenDefault_pidFile (c : Config) :
    (setupListenDefault c).pidFile = c.pidFile := by
  unfold setupListenDefault; split <;> rfl

@[simp] theorem setupPIDFileDefault_pidFile (c : Config) :
    (setupPIDFileDefault c).pidFile = c.pidFile := by
  unfold setupPIDFileDefault; split <;> rfl

theorem setupPIDFileDefault_listen_of_empty (c : Config) (h : c.pidFile = "") :
    (setupPIDFileDefault c).listen = "ssl-cert-server.pid" := by
  unfold setupPIDFileDefault
  rw [if_pos (by simp [h])]

@[simp] theorem setupStorageTypeDefault_keeps (c : Config) :
    (setupStorageTypeDefault c).pidFile = c.pidFile ∧
    (setupStorageTypeDefault c).listen = c.listen := by
  unfold setupStorageTypeDefault; constructor <;> (split <;> rfl)

@[simp] theorem setupDirCacheDefault_keeps (c : Config) :
    (setupDirCacheDefault c).pidFile = c.pidFile ∧
    (setupDirCacheDefault c).listen = c.listen := by
  unfold setupDirCacheDefault; constructor <;> (split <;> rfl)

@[simp] theorem setupRedisAddrDefault_keeps (c : Config) :
    (setupRedisAddrDefault c).pidFile = c.pidFile ∧
    (setupRedisAddrDefault c).listen = c.listen := by
  unfold setupRedisAddrDefault; constructor <;> (split <;> rfl)

@[simp] theorem setupRenewBeforeDefault_keeps (c : Config) :
    (setupRenewBeforeDefault c).pidFile = c.pidFile ∧
    (setupRenewBeforeDefault c).listen = c.listen := by
  unfold setupRenewBeforeDefault; constructor <;> (split <;> rfl)

@[simp] theorem setupDirectoryURL_keeps (c : Config) :
    (setupDirectoryURL c).pidFile = c.pidFile ∧
    (setupDirectoryURL c).listen = c.listen := by
  unfold setupDirectoryURL; constructor <;> (split <;> rfl)

@[simp] theorem setupValidDaysDefault_keeps (c : Config) :
    (setupValidDaysDefault c).pidFile = c.pidFile ∧
    (setupValidDaysDefault c).listen = c.listen := by
  unfold setupValidDaysDefault; constructor <;> (split <;> rfl)

@[simp] theorem setupOrganizationDefault_keeps (c : Config) :
    (setupOrganizationDefault c).pidFile = c.pidFile ∧
    (setupOrganizationDefault c).listen = c.listen := by
  unfold setupOrganizationDefault; constructor <;> (split <;> rfl)

@[simp] theorem setupCertDefault_keeps (c : Config) :
    (setupCertDefault c).pidFile = c.pidFile ∧
    (setupCertDefault c).listen = c.listen := by
  unfold setupCertDefault; constructor <;> (split <;> rfl)

@[simp] theorem setupPrivKeyDefault_keeps (c : Config) :
    (setupPrivKeyDefault c).pidFile = c.pidFile ∧
    (setupPrivKeyDefault c).listen = c.listen := by
  unfold setupPrivKeyDefault; constructor <;> (split <;> rfl)

/-! ## Helper lemmas about the cache-map primitives -/

theorem find?_eq_none_of_cacheLoad_none (m : CacheMap) (k : String)
    (h : cacheLoad m k = none) : m.find? (fun e => e.1 == k) = none := by
  unfold cacheLoad at h
  cases hf : m.find? (fun e => e.1 == k) <;> simp [hf] at h ⊢

theorem cacheUpdate_of_none (m : CacheMap) (k : String) (v : ManagedCert)
    (h : m.find? (fun e => e.1 == k) = none) : cacheUpdate m k v = m := by
  unfold cacheUpdate
  induction m with
  | nil => rfl
  | cons hd tl ih =>
    rw [List.find?_cons] at h
    split at h
    · exact absurd h (by simp)
    · simp_all

theorem mem_cacheUpdate (m : CacheMap) (k : String) (v : ManagedCert)
    (e : String × ManagedCert) (h : e ∈ cacheUpdate m k v) : e ∈ m ∨ e = (k, v) := by
  unfold cacheUpdate at h
  rw [List.mem_map] at h
  obtain ⟨x, hx, hfx⟩ := h
  by_cases hk : (x.1 == k) = true
  · rw [if_pos hk] at hfx
    exact Or.inr hfx.symm
  · rw [if_neg hk] at hfx
    subst hfx
    exact Or.inl hx

theorem cacheLoadOrStore_fst (m : CacheMap) (k : String) (v : ManagedCert) :
    (∃ e ∈ m, (cacheLoadOrStore m k v).1 = e.2) ∨ (cacheLoadOrStore m k v).1 = v := by
  unfold cacheLoadOrStore
  cases hf : m.find? (fun e => e.1 == k) with
  | some e => exact Or.inl ⟨e, List.mem_of_find?_eq_some hf, rfl⟩
  | none => exact Or.inr rfl

theorem cacheLoadOrStore_snd_mem (m : CacheMap) (k : String) (v : ManagedCert)
    (e : String × ManagedCert) (h : e ∈ (cacheLoadOrStore m k v).2) :
    e ∈ m ∨ e = (k, v) := by
  unfold cacheLoadOrStore at h
  cases hf : m.find? (fun x => x.1 == k) <;> rw [hf] at h
  · rw [List.mem_append] at h
    rcases h with h | h
    · exact Or.inl h
    · simp at h
      exact Or.inr (by simp [h])
  · exact Or.inl h

theorem lockedLoad_fst (stor : String → Except String Cert) (now : Int)
    (mc : ManagedCert) (k : String) :
    (lockedLoad stor now mc k).1 = mc ∨ (lockedLoad stor now mc k).1.loadAt = now := by
  unfold lockedLoad
  cases hc : mc.cert
  · cases hs : stor k
    · exact Or.inl rfl
    · exact Or.inr rfl
  · exact Or.inl rfl

/-- Reachability invariant: if every entry whose snapshot is populated has a
positive `loadAt`, then after any `getManagedCertificate` call made at a
positive Unix time the same holds.  (Both store sites in the source set
`loadAt = time.Now().Unix()` together with the snapshot, so real executions
satisfy this; the lemma justifies the `0 < loadAt` hypothesis of the
stale-path theorem below.) -/
theorem getManaged_preserves_loadAt_pos (stor : String → Except String Cert)
    (now : Int) (m : CacheMap) (k : String) (hnow : 0 < now)
    (hinv : ∀ e ∈ m, e.2.cert ≠ none → 0 < e.2.loadAt) :
    ∀ e ∈ (getManagedCertificate stor now m k).cache, e.2.cert ≠ none → 0 < e.2.loadAt := by
  have hcold : ∀ e ∈ (coldLoad stor now m k).cache, e.2.cert ≠ none → 0 < e.2.loadAt := by
    unfold coldLoad
    intro e he hcert
    rcases mem_cacheUpdate _ _ _ _ he with hmem | hne
    · rcases cacheLoadOrStore_snd_mem _ _ _ _ hmem with hm | hv
      · exact hinv e hm hcert
      · rw [hv] at hcert
        exact absurd rfl hcert
    · rcases lockedLoad_fst stor now (cacheLoadOrStore m k ⟨none, 0⟩).1 k with hsame | hnew
      · rw [hne]
        rw [hne] at hcert
        dsimp only at hcert ⊢
        rw [hsame] at hcert ⊢
        rcases cacheLoadOrStore_fst m k ⟨none, 0⟩ with ⟨e0, he0, heq⟩ | hv
        · rw [heq] at hcert ⊢
          exact hinv e0 he0 hcert
        · rw [hv] at hcert
          exact absurd rfl hcert
      · rw [hne]
        dsimp only
        rw [hnew]
        exact hnow
  unfold getManagedCertificate
  split
  · split
    · split <;> exact hinv
    · exact hcold
  · exact hcold

/-! ## Claim theorems -/

/-- C1: the claim states that with exact-list `{"a.example.com"}` and
pattern list `{^b\.}` the composed policy denies `"c.example.com"` with a
non-nil error.  The code does the opposite: because the regex branch of the
composed closure reads `if err = rePolicy(ctx, host); err != nil { return
nil }`, a regex denial is converted into an allow, so the policy built by
`buildHostPolicy` returns nil (allow) for `"c.example.com"` even though
neither sub-policy allows it.  This theorem evaluates the code at that
failing input. -/
theorem buildHostPolicy_allows_host_denied_by_both_lists :
    buildHostPolicy ["a.example.com"] [patternBDot] "c.example.com" = none := by
  decide

/-- C2: if the cache holds an entry for the key whose snapshot is non-nil
and `now - loadAt ≤ reloadInterval` (300 seconds), `getManagedCertificate`
returns that snapshot with an unchanged cache map and an empty effect
trace: no lock acquisition, no `LoadCertificateFromStore` call, no reload
task.  `ManagedGet` surfaces the same certificate.  Since the cache map is
returned unchanged, repeated such calls satisfy the same hypotheses and
return the identical certificate with zero additional storage calls. -/
theorem getManagedCertificate_fresh_hit_immediate
    (stor : String → Except String Cert) (now : Int) (m : CacheMap)
    (certKey : String) (e : ManagedCert) (c : Cert)
    (hm : cacheLoad m certKey = some e) (hc : e.cert = some c)
    (hfresh : now - e.loadAt ≤ reloadInterval) :
    getManagedCertificate stor now m certKey = ⟨.ok c, m, []⟩ ∧
    (ManagedGet stor now m certKey).result = .ok c := by
  have hget : getManagedCertificate stor now m certKey = ⟨.ok c, m, []⟩ := by
    unfold getManagedCertificate
    rw [hm]
    simp only [hc]
    rw [if_neg]
    simp only [Bool.and_eq_true, decide_eq_true_eq, not_and, reloadInterval] at *
    omega
  refine ⟨hget, ?_⟩
  unfold ManagedGet
  rw [hget]

/-- Witness for C2: a fresh entry (loaded at 100, read at 200) is served
without any effect even though the storage layer would fail. -/
theorem getManagedCertificate_fresh_hit_immediate_witness :
    cacheLoad [("k", (⟨some 7, 100⟩ : ManagedCert))] "k" = some ⟨some 7, 100⟩ ∧
    (⟨some 7, 100⟩ : ManagedCert).cert = some 7 ∧
    (200 : Int) - (⟨some 7, 100⟩ : ManagedCert).loadAt ≤ reloadInterval ∧
    getManagedCertificate (fun _ => .error "down") 200 [("k", ⟨some 7, 100⟩)] "k"
      = ⟨.ok 7, [("k", ⟨some 7, 100⟩)], []⟩ :=
  ⟨by decide, rfl, by decide,
    (getManagedCertificate_fresh_hit_immediate (fun _ => .error "down") 200
      [("k", ⟨some 7, 100⟩)] "k" ⟨some 7, 100⟩ 7 (by decide) rfl (by decide)).1⟩

/-- C3: if the cached snapshot is non-nil, its `loadAt` is positive (true of
every reachable populated entry, see `getManaged_preserves_loadAt_pos`) and
`now - loadAt` exceeds `reloadInterval`, `getManagedCertificate` returns the
current stale snapshot with an unchanged cache map and a trace consisting of
exactly one spawned background reload task for that key — no lock, no
synchronous storage call, so the caller never waits on the reload. -/
theorem getManagedCertificate_stale_hit_spawns_one_reload
    (stor : String → Except String Cert) (now : Int) (m : CacheMap)
    (certKey : String) (e : ManagedCert) (c : Cert)
    (hm : cacheLoad m certKey = some e) (hc : e.cert = some c)
    (hpos : 0 < e.loadAt) (hstale : reloadInterval < now - e.loadAt) :
    getManagedCertificate stor now m certKey = ⟨.ok c, m, [.goReload certKey]⟩ ∧
    (ManagedGet stor now m certKey).result = .ok c := by
  have hget : getManagedCertificate stor now m certKey = ⟨.ok c, m, [.goReload certKey]⟩ := by
    unfold getManagedCertificate
    rw [hm]
    simp only [hc]
    rw [if_pos]
    simp only [Bool.and_eq_true, decide_eq_true_eq, reloadInterval] at *
    omega
  refine ⟨hget, ?_⟩
  unfold ManagedGet
  rw [hget]

/-- Witness for C3: an entry loaded at 100 and read at 1000 (900 seconds
later) is served stale and spawns one reload task. -/
theorem getManagedCertificate_stale_hit_spawns_one_reload_witness :
    cacheLoad [("k", (⟨some 7, 100⟩ : ManagedCert))] "k" = some ⟨some 7, 100⟩ ∧
    (⟨some 7, 100⟩ : ManagedCert).cert = some 7 ∧
    (0 : Int) < (⟨some 7, 100⟩ : ManagedCert).loadAt ∧
    reloadInterval < (1000 : Int) - (⟨some 7, 100⟩ : ManagedCert).loadAt ∧
    getManagedCertificate (fun _ => .error "down") 1000 [("k", ⟨some 7, 100⟩)] "k"
      = ⟨.ok 7, [("k", ⟨some 7, 100⟩)], [.goReload "k"]⟩ :=
  ⟨by decide, rfl, by decide, by decide,
    (getManagedCertificate_stale_hit_spawns_one_reload (fun _ => .error "down") 1000
      [("k", ⟨some 7, 100⟩)] "k" ⟨some 7, 100⟩ 7 (by decide) rfl (by decide) (by decide)).1⟩

/-- C4: on a cold load whose storage read fails, `getManagedCertificate`
returns the error wrapped as `"managed: <cause>"`, the entry inserted for
the key keeps a nil snapshot and `loadAt = 0`, and the trace is lock
acquisition, one storage load, then lock release — the mutex is released on
this exit path.  `ManagedGet` propagates the same wrapped error. -/
theorem getManagedCertificate_cold_error_wraps_and_preserves_entry
    (stor : String → Except String Cert) (now : Int) (m : CacheMap)
    (certKey : String) (emsg : String)
    (hm : cacheLoad m certKey = none) (herr : stor certKey = .error emsg) :
    getManagedCertificate stor now m certKey =
      ⟨.error ("managed: " ++ emsg), m ++ [(certKey, ⟨none, 0⟩)],
       [.lockAcquire, .storLoad certKey, .lockRelease]⟩ ∧
    (ManagedGet stor now m certKey).result = .error ("managed: " ++ emsg) := by
  have hfind := find?_eq_none_of_cacheLoad_none m certKey hm
  have hget : getManagedCertificate stor now m certKey =
      ⟨.error ("managed: " ++ emsg), m ++ [(certKey, ⟨none, 0⟩)],
       [.lockAcquire, .storLoad certKey, .lockRelease]⟩ := by
    unfold getManagedCertificate
    rw [hm]
    unfold coldLoad
    simp only [cacheLoadOrStore, hfind, lockedLoad, herr]
    unfold cacheUpdate
    rw [List.map_append]
    have h1 : cacheUpdate m certKey ⟨none, 0⟩ = m := cacheUpdate_of_none m certKey _ hfind
    unfold cacheUpdate at h1
    rw [h1]
    simp
  refine ⟨hget, ?_⟩
  unfold ManagedGet
  rw [hget]

/-- Witness for C4: a first load of an unseen key against a failing storage
layer returns the tagged error and leaves the fresh entry empty. -/
theorem getManagedCertificate_cold_error_wraps_and_preserves_entry_witness :
    cacheLoad [] "k" = none ∧
    (fun _ : String => (.error "down" : Except String Cert)) "k" = .error "down" ∧
    getManagedCertificate (fun _ => .error "down") 50 [] "k"
      = ⟨.error ("managed: " ++ "down"), [("k", ⟨none, 0⟩)],
         [.lockAcquire, .storLoad "k", .lockRelease]⟩ :=
  ⟨rfl, rfl,
    (getManagedCertificate_cold_error_wraps_and_preserves_entry (fun _ => .error "down") 50
      [] "k" "down" rfl rfl).1⟩

/-- C5: a failed background reload leaves the entry (snapshot and `loadAt`)
untouched and performs only the storage read; the reload procedure has no
error result in the source, so nothing propagates to any `Get` caller; and
a subsequent `Get` for the key still returns the previously cached
certificate. -/
theorem reload_failure_swallowed_and_stale_served
    (stor stor2 : String → Except String Cert) (now now2 : Int)
    (ent : ManagedCert) (m : CacheMap) (certKey : String) (c : Cert) (emsg : String)
    (herr : stor certKey = .error emsg) (hc : ent.cert = some c)
    (hm : cacheLoad m certKey = some ent) :
    reloadManagedCertificate stor now ent certKey = (ent, [.storLoad certKey]) ∧
    (ManagedGet stor2 now2 m certKey).result = .ok c := by
  have hres : (getManagedCertificate stor2 now2 m certKey).result = .ok c := by
    unfold getManagedCertificate
    rw [hm]
    simp only [hc]
    split <;> rfl
  constructor
  · unfold reloadManagedCertificate
    rw [herr]
  · unfold ManagedGet
    simp only [hres]

/-- Witness for C5: reloading against dead storage keeps the entry, and a
later `Get` (even much later) serves the old certificate. -/
theorem reload_failure_swallowed_and_stale_served_witness :
    (fun _ : String => (.error "down" : Except String Cert)) "k" = .error "down" ∧
    (⟨some 7, 100⟩ : ManagedCert).cert = some 7 ∧
    cacheLoad [("k", (⟨some 7, 100⟩ : ManagedCert))] "k" = some ⟨some 7, 100⟩ ∧
    (reloadManagedCertificate (fun _ => .error "down") 900 ⟨some 7, 100⟩ "k"
        = (⟨some 7, 100⟩, [.storLoad "k"]) ∧
      (ManagedGet (fun _ => .error "down") 2000 [("k", ⟨some 7, 100⟩)] "k").result = .ok 7) :=
  ⟨rfl, rfl, by decide,
    reload_failure_swallowed_and_stale_served (fun _ => .error "down") (fun _ => .error "down")
      900 2000 ⟨some 7, 100⟩ [("k", ⟨some 7, 100⟩)] "k" 7 "down" rfl rfl (by decide)⟩

/-- C6: concurrent first-time `Get` calls for one unseen key perform exactly
one storage load between them.  In the source the two racing tasks are
serialized by `sync.Map.LoadOrStore` (exactly-once insertion) and the entry
mutex; this theorem states the interleaving step by step: (1) both
`LoadOrStore` calls hand back the single freshly inserted empty entry — the
second call finds the first call's entry and leaves the map unchanged;
(2) the critical section of the task that wins the mutex performs one
storage load and populates the snapshot; (3) the loser's critical section,
re-checking the now-populated snapshot under the lock, returns the same
certificate with zero storage loads. -/
theorem concurrent_first_get_single_storage_load
    (stor : String → Except String Cert) (now : Int) (m : CacheMap)
    (certKey : String) (c : Cert)
    (hm : cacheLoad m certKey = none) (hok : stor certKey = .ok c) :
    (cacheLoadOrStore m certKey ⟨none, 0⟩).1 = ⟨none, 0⟩ ∧
    cacheLoadOrStore (cacheLoadOrStore m certKey ⟨none, 0⟩).2 certKey ⟨none, 0⟩ =
      (⟨none, 0⟩, (cacheLoadOrStore m certKey ⟨none, 0⟩).2) ∧
    lockedLoad stor now ⟨none, 0⟩ certKey = (⟨some c, now⟩, .ok c, [.storLoad certKey]) ∧
    lockedLoad stor now ⟨some c, now⟩ certKey = (⟨some c, now⟩, .ok c, []) := by
  have hfind := find?_eq_none_of_cacheLoad_none m certKey hm
  refine ⟨?_, ?_, ?_, rfl⟩
  · simp [cacheLoadOrStore, hfind]
  · simp [cacheLoadOrStore, hfind, List.find?_append]
  · simp [lockedLoad, hok]

/-- Witness for C6: two racing cold loads of key `"k"` on an empty cache
against working storage. -/
theorem concurrent_first_get_single_storage_load_witness :
    cacheLoad [] "k" = none ∧
    (fun _ : String => (.ok 7 : Except String Cert)) "k" = .ok 7 ∧
    ((cacheLoadOrStore [] "k" ⟨none, 0⟩).1 = ⟨none, 0⟩ ∧
      cacheLoadOrStore (cacheLoadOrStore [] "k" ⟨none, 0⟩).2 "k" ⟨none, 0⟩ =
        (⟨none, 0⟩, (cacheLoadOrStore [] "k" ⟨none, 0⟩).2) ∧
      lockedLoad (fun _ => .ok 7) 50 ⟨none, 0⟩ "k" = (⟨some 7, 50⟩, .ok 7, [.storLoad "k"]) ∧
      lockedLoad (fun _ => .ok 7) 50 ⟨some 7, 50⟩ "k" = (⟨some 7, 50⟩, .ok 7, [])) :=
  ⟨rfl, rfl,
    concurrent_first_get_single_storage_load (fun _ => .ok 7) 50 [] "k" 7 rfl rfl⟩

/-- C7: `Get` registers an OCSP watch exactly on success: the watch is
registered under `OCSPKeyName certKey = "managed|" ++ certKey` with a
callback that re-invokes `getManagedCertificate` for the same key iff the
call returned a certificate, and no watch is registered iff the call
returned an error. -/
theorem managedGet_watch_iff_success
    (stor : String → Except String Cert) (now : Int) (m : CacheMap)
    (certKey : String) :
    ((ManagedGet stor now m certKey).watch = some (OCSPKeyName certKey, certKey) ↔
      ∃ c, (ManagedGet stor now m certKey).result = .ok c) ∧
    ((ManagedGet stor now m certKey).watch = none ↔
      ∃ e, (ManagedGet stor now m certKey).result = .error e) := by
  unfold ManagedGet
  cases h : (getManagedCertificate stor now m certKey).result <;> simp [h]

/-- C8: with both the domain list and the pattern list empty,
`buildHostPolicy` installs the unconditional allow-all policy: it returns
nil for every host. -/
theorem buildHostPolicy_empty_allows_every_host (host : String) :
    buildHostPolicy [] [] host = none := rfl

/-- C9: when `PIDFile` is empty, `setupDefaultOptions` leaves `PIDFile`
empty and writes the PID-file default string into `Listen` instead,
overwriting whatever listen address was configured or defaulted. -/
theorem setupDefaultOptions_pid_default_overwrites_listen (c : Config)
    (h : c.pidFile = "") :
    (setupDefaultOptions c).pidFile = "" ∧
    (setupDefaultOptions c).listen = "ssl-cert-server.pid" := by
  have h1 : (setupListenDefault c).pidFile = "" := by simp [h]
  unfold setupDefaultOptions
  constructor
  · simp [h]
  · simp [setupPIDFileDefault_listen_of_empty _ h1]

/-- Witness for C9: a configuration with a configured listen address and an
empty PID file. -/
theorem setupDefaultOptions_pid_default_overwrites_listen_witness :
    sampleConfig.pidFile = "" ∧
    ((setupDefaultOptions sampleConfig).pidFile = "" ∧
      (setupDefaultOptions sampleConfig).listen = "ssl-cert-server.pid") :=
  ⟨rfl, setupDefaultOptions_pid_default_overwrites_listen sampleConfig rfl⟩

/-- C10: the storage `switch` of `initConfig` (1) discards the error of
`NewDirCache` for type `"dir_cache"` and proceeds with whatever cache value
was returned (possibly nil); (2) for any unrecognized non-empty type sets
no cache and proceeds; and (3) aborts startup only for type `"redis"`, and
only when the redis setup returned an error. -/
theorem initStorageCache_error_handling :
    (∀ (dv : Option Cache) (de : Option String) (r : Option Cache × Option String),
        initStorageCache "dir_cache" (dv, de) r = .proceed dv) ∧
    (∀ (t : String) (d r : Option Cache × Option String),
        t ≠ "dir_cache" → t ≠ "redis" → initStorageCache t d r = .proceed none) ∧
    (∀ (t : String) (d r : Option Cache × Option String) (msg : String),
        initStorageCache t d r = .fatal msg → t = "redis" ∧ r.2 ≠ none) := by
  refine ⟨fun dv de r => rfl, fun t d r h1 h2 => ?_, fun t d r msg h => ?_⟩
  · unfold initStorageCache
    split
    · exact absurd rfl h1
    · exact absurd rfl h2
    · rfl
  · unfold initStorageCache at h
    split at h
    · exact absurd h (by simp)
    · constructor
      · rfl
      · split at h
        · simp_all
        · exact absurd h (by simp)
    · exact absurd h (by simp)

/-- Witness for C10: a failed `NewDirCache` is ignored for `"dir_cache"`,
an unknown type `"memcached"` proceeds with no cache, and a failed redis
setup is fatal. -/
theorem initStorageCache_error_handling_witness :
    initStorageCache "dir_cache" (none, some "perm denied") (some 2, none)
        = .proceed none ∧
    ("memcached" ≠ "dir_cache" ∧ "memcached" ≠ "redis" ∧
      initStorageCache "memcached" (some 1, none) (some 2, none) = .proceed none) :=
  ⟨initStorageCache_error_handling.1 none (some "perm denied") (some 2, none),
    by decide, by decide,
    initStorageCache_error_handling.2.1 "memcached" (some 1, none) (some 2, none)
      (by decide) (by decide)⟩

end SslCertServer
